import Mathlib

/-!
Verification of the SCORM Package Compiler subsystem of the CourseForge
repository: the suspend-data codec, the session timer, the score evaluator,
the generated runtime-bridge terminate sequence, and the manifest compiler.

Every definition below is a shallow embedding of the corresponding
TypeScript source (the SCORM compliance service and the SCORM router).
JavaScript machine behaviour is modelled explicitly: object literals become
ordered association lists, JavaScript string length is counted in UTF-16
code units, fallible operations return Option or Except, and the ambient
wall clock is passed as an explicit argument wherever the source reads
Date.now().
-/

namespace CourseForge

/-- Apostrophe character (code point 39), named to use in escape tables. -/
def apos : Char := Char.ofNat 39

/-- Decimal digit character for n % 10, as emitted by JavaScript number
formatting. -/
def digitChar (n : Nat) : Char :=
  match n % 10 with
  | 0 => '0' | 1 => '1' | 2 => '2' | 3 => '3' | 4 => '4'
  | 5 => '5' | 6 => '6' | 7 => '7' | 8 => '8' | _ => '9'

/-- Fuel-driven most-significant-first decimal rendering of a natural
number; fuel at least n + 1 always suffices. Mirrors JavaScript
Number.prototype.toString for non-negative integers. -/
def natDecAux : Nat → Nat → List Char
  | 0, _ => []
  | fuel + 1, n => if n < 10 then [digitChar n] else natDecAux fuel (n / 10) ++ [digitChar (n % 10)]

/-- Decimal rendering of a natural number as a character list. -/
def natDecL (n : Nat) : List Char := natDecAux (n + 1) n

/-- Decimal rendering of a natural number as a string. -/
def natDec (n : Nat) : String := ⟨natDecL n⟩

/-- Decimal rendering of an integer as a character list, with a leading
minus sign for negative values, as JavaScript renders integral numbers. -/
def intDecL (i : Int) : List Char :=
  if i < 0 then '-' :: natDecL i.natAbs else natDecL i.natAbs

/-- Decimal rendering of an integer as a string. -/
def intDec (i : Int) : String := ⟨intDecL i⟩

/-- Number of UTF-16 code units a character occupies in a JavaScript
string: astral code points take a surrogate pair. -/
def utf16Units (c : Char) : Nat := if c.toNat < 0x10000 then 1 else 2

/-- JavaScript String.prototype.length of a character list: total count of
UTF-16 code units. -/
def jsLenL : List Char → Nat
  | [] => 0
  | c :: cs => utf16Units c + jsLenL cs

/-- JavaScript String.prototype.length of a string. -/
def jsLen (s : String) : Nat := jsLenL s.data

/-- Characters removed by JavaScript String.prototype.trim: ECMAScript
WhiteSpace and LineTerminator code points. -/
def isJsTrimWs (c : Char) : Bool :=
  c.toNat = 32 || c.toNat = 9 || c.toNat = 10 || c.toNat = 13 ||
  c.toNat = 11 || c.toNat = 12 || c.toNat = 0xa0 || c.toNat = 0xfeff ||
  c.toNat = 0x1680 || (0x2000 <= c.toNat && c.toNat <= 0x200a) ||
  c.toNat = 0x2028 || c.toNat = 0x2029 || c.toNat = 0x202f ||
  c.toNat = 0x205f || c.toNat = 0x3000

/-- Test for the blank-input guard of the codec: true exactly when the
JavaScript condition (not json or json.trim() is the empty string) holds. -/
def isBlank (s : String) : Bool := s.data.all isJsTrimWs

/-- Whitespace the JSON grammar allows between tokens. -/
def isJsonWs (c : Char) : Bool := c = ' ' || c = '\t' || c = '\n' || c = '\r'

/-- Skip leading JSON whitespace. -/
def skipWs : List Char → List Char
  | [] => []
  | c :: cs => if isJsonWs c then skipWs cs else c :: cs

/-- Test for a decimal digit character. -/
def isDigitCh (c : Char) : Bool := 48 ≤ c.toNat && c.toNat ≤ 57

/-- Lowercase hexadecimal digit character for n % 16, as emitted by
JSON.stringify in a Unicode escape. -/
def hexDigitCh (n : Nat) : Char :=
  match n % 16 with
  | 0 => '0' | 1 => '1' | 2 => '2' | 3 => '3' | 4 => '4'
  | 5 => '5' | 6 => '6' | 7 => '7' | 8 => '8' | 9 => '9'
  | 10 => 'a' | 11 => 'b' | 12 => 'c' | 13 => 'd' | 14 => 'e' | _ => 'f'

/-- Value of a hexadecimal digit character, accepting both cases. -/
def hexVal (c : Char) : Option Nat :=
  if 48 ≤ c.toNat && c.toNat ≤ 57 then some (c.toNat - 48)
  else if 97 ≤ c.toNat && c.toNat ≤ 102 then some (c.toNat - 87)
  else if 65 ≤ c.toNat && c.toNat ≤ 70 then some (c.toNat - 55)
  else none

/-- Escape of one character inside a JSON string literal, exactly as
JSON.stringify performs it: quote and backslash get a backslash escape,
the five named control characters get their short escapes, the remaining
control characters get a Unicode escape, and everything else is copied. -/
def escJsonChar (c : Char) : List Char :=
  if c = '"' then ['\\', '"']
  else if c = '\\' then ['\\', '\\']
  else if c = '\x08' then ['\\', 'b']
  else if c = '\t' then ['\\', 't']
  else if c = '\n' then ['\\', 'n']
  else if c = '\x0c' then ['\\', 'f']
  else if c = '\r' then ['\\', 'r']
  else if c.toNat < 0x20 then
    ['\\', 'u', '0', '0', hexDigitCh (c.toNat / 16), hexDigitCh (c.toNat % 16)]
  else [c]

/-- Escape of a whole character list for a JSON string literal. -/
def escJsonList : List Char → List Char
  | [] => []
  | c :: cs => escJsonChar c ++ escJsonList cs

/-- Quoted JSON string literal for s, including the delimiting quotes. -/
def quoteL (s : String) : List Char := '"' :: (escJsonList s.data ++ ['"'])

/-- Minified suspend data record of the SCORM compliance service: field l
is the lesson id, field t the timestamp in seconds, field q the quiz
answers. JavaScript numbers holding integral values are modelled as Int
and the answers object as an insertion-ordered association list. -/
structure SuspendData where
  l : Int
  t : Int
  q : List (String × String)
deriving DecidableEq, Repr

/-- JSON values, as produced by JSON.parse on the inputs this system
feeds it: objects keep their fields in textual order. Arrays never occur
in the wire format the codec emits, and the codec's shape extraction
rejects them, so they are parsed only to be rejected and are not
represented. -/
inductive Json where
  | jnull : Json
  | jbool : Bool → Json
  | jnum : Int → Json
  | jstr : String → Json
  | jobj : List (String × Json) → Json

/-- JSON encoding of a SuspendData value, with the field order of the
object literals the source constructs. -/
def SuspendData.toJson (d : SuspendData) : Json :=
  .jobj [("l", .jnum d.l), ("t", .jnum d.t),
         ("q", .jobj (d.q.map fun p => (p.1, Json.jstr p.2)))]

/-- Rendering of the quiz-answers object body: fields separated by commas,
each a quoted key, a colon and a quoted value, exactly as JSON.stringify
renders a string-valued object. -/
def qFieldsL : List (String × String) → List Char
  | [] => []
  | [(k, v)] => quoteL k ++ ':' :: quoteL v
  | (k, v) :: p :: rest => quoteL k ++ ':' :: quoteL v ++ ',' :: qFieldsL (p :: rest)

/-- Output of JSON.stringify on a SuspendData value, character by
character. -/
def suspendJsonL (d : SuspendData) : List Char :=
  '{' :: (quoteL "l" ++ ':' :: intDecL d.l ++
  ',' :: quoteL "t" ++ ':' :: intDecL d.t ++
  ',' :: quoteL "q" ++ ':' :: '{' :: (qFieldsL d.q ++ ['}', '}']))

/-- Output of JSON.stringify on a SuspendData value, as a string. -/
def suspendJson (d : SuspendData) : String := ⟨suspendJsonL d⟩

/-- Hard SCORM 1.2 ceiling on serialized suspend data. -/
def MAX_LENGTH : Nat := 4096

/-- Error message thrown by SuspendDataManager.serialize, reporting the
actual serialized length and the limit. -/
def oversizeMsg (n : Nat) : String :=
  "Suspend data exceeds SCORM 1.2 limit: " ++ natDec n ++ " > " ++
    natDec MAX_LENGTH ++ " characters"

/-- SuspendDataManager.serialize: renders the record with JSON.stringify
and throws (modelled as Except.error) when the rendered length exceeds
the SCORM 1.2 limit, otherwise returns the rendered string. -/
def serialize (data : SuspendData) : Except String String :=
  let json := suspendJson data
  if MAX_LENGTH < jsLen json then .error (oversizeMsg (jsLen json)) else .ok json

/-- SuspendDataManager.validate: true exactly when the JSON.stringify
rendering fits the limit. The try/catch of the source never fires here
because stringify on this record shape cannot throw. -/
def validate (data : SuspendData) : Bool := jsLen (suspendJson data) ≤ MAX_LENGTH

/-- SuspendDataManager.getSize: length of the JSON.stringify rendering. -/
def getSize (data : SuspendData) : Nat := jsLen (suspendJson data)

/-- Match a fixed sequence of expected characters at the head of the
input, returning the remainder. -/
def expectChars : List Char → List Char → Option (List Char)
  | [], cs => some cs
  | _ :: _, [] => none
  | p :: ps, c :: cs => if c = p then expectChars ps cs else none

/-- Body of a JSON string literal after the opening quote: consumes up to
and including the closing quote, decoding the escapes JSON permits.
Unicode escapes that name a value Lean characters cannot carry (the
surrogate block) are rejected; the codec never emits them. -/
def parseStrBody : List Char → Option (List Char × List Char)
  | [] => none
  | c :: rest =>
    if c = '"' then some ([], rest)
    else if c = '\\' then
      match rest with
      | [] => none
      | e :: rest2 =>
        if e = '"' then (parseStrBody rest2).map fun p => ('"' :: p.1, p.2)
        else if e = '\\' then (parseStrBody rest2).map fun p => ('\\' :: p.1, p.2)
        else if e = '/' then (parseStrBody rest2).map fun p => ('/' :: p.1, p.2)
        else if e = 'b' then (parseStrBody rest2).map fun p => ('\x08' :: p.1, p.2)
        else if e = 'f' then (parseStrBody rest2).map fun p => ('\x0c' :: p.1, p.2)
        else if e = 'n' then (parseStrBody rest2).map fun p => ('\n' :: p.1, p.2)
        else if e = 'r' then (parseStrBody rest2).map fun p => ('\r' :: p.1, p.2)
        else if e = 't' then (parseStrBody rest2).map fun p => ('\t' :: p.1, p.2)
        else if e = 'u' then
          match rest2 with
          | h1 :: h2 :: h3 :: h4 :: rest3 =>
            match hexVal h1, hexVal h2, hexVal h3, hexVal h4 with
            | some a, some b, some c3, some d =>
              let v := ((a * 16 + b) * 16 + c3) * 16 + d
              if v < 0xd800 then
                (parseStrBody rest3).map fun p => (Char.ofNat v :: p.1, p.2)
              else none
            | _, _, _, _ => none
          | _ => none
        else none
    else (parseStrBody rest).map fun p => (c :: p.1, p.2)

/-- Longest run of decimal digits at the head of the input, folded onto
an accumulator. -/
def takeDigits : List Char → Nat → Nat × List Char
  | [], acc => (acc, [])
  | c :: cs, acc =>
    if isDigitCh c then takeDigits cs (acc * 10 + (c.toNat - 48)) else (acc, c :: cs)

/-- Non-empty digit run parsed as a natural number. -/
def parseNatNum : List Char → Option (Nat × List Char)
  | [] => none
  | c :: cs => if isDigitCh c then some (takeDigits cs (c.toNat - 48)) else none

/-- JSON number at the head of the input. The codec emits only integral
numbers, so fractions and exponents are not modelled; on them the parse
fails and the caller treats the input as malformed. -/
def parseNumber (cs : List Char) : Option (Int × List Char) :=
  match cs with
  | [] => none
  | c :: rest =>
    if c = '-' then (parseNatNum rest).map fun p => (-(p.1 : Int), p.2)
    else (parseNatNum (c :: rest)).map fun p => ((p.1 : Int), p.2)

/-- Test whether the input begins with a decimal digit. -/
def headIsDigit : List Char → Bool
  | [] => false
  | c :: _ => isDigitCh c

/-- Recursive-descent JSON parser with explicit fuel; an input of length
n never needs more than n + 1 fuel. Mode false parses one value; mode
true parses a non-empty object member list up to and including the
closing brace, returning it as an object value. -/
def parseCore : Nat → Bool → List Char → Option (Json × List Char)
  | 0, _, _ => none
  | fuel + 1, false, cs =>
    match skipWs cs with
    | [] => none
    | c :: r =>
      if c = '"' then (parseStrBody r).map fun p => (Json.jstr ⟨p.1⟩, p.2)
      else if c = '{' then
        match skipWs r with
        | [] => none
        | c2 :: r2 =>
          if c2 = '}' then some (Json.jobj [], r2)
          else parseCore fuel true (c2 :: r2)
      else if c = 'n' then (expectChars ['u', 'l', 'l'] r).map fun r2 => (Json.jnull, r2)
      else if c = 't' then (expectChars ['r', 'u', 'e'] r).map fun r2 => (Json.jbool true, r2)
      else if c = 'f' then (expectChars ['a', 'l', 's', 'e'] r).map fun r2 => (Json.jbool false, r2)
      else (parseNumber (c :: r)).map fun p => (Json.jnum p.1, p.2)
  | fuel + 1, true, cs =>
    match skipWs cs with
    | [] => none
    | c :: r =>
      if c = '"' then
        match parseStrBody r with
        | none => none
        | some (key, r2) =>
          match skipWs r2 with
          | [] => none
          | c2 :: r3 =>
            if c2 = ':' then
              match parseCore fuel false r3 with
              | none => none
              | some (v, r4) =>
                match skipWs r4 with
                | [] => none
                | c3 :: r5 =>
                  if c3 = ',' then
                    match parseCore fuel true r5 with
                    | some (Json.jobj ps, r6) => some (Json.jobj ((⟨key⟩, v) :: ps), r6)
                    | _ => none
                  else if c3 = '}' then some (Json.jobj [(⟨key⟩, v)], r5)
                  else none
            else none
      else none

/-- JSON.parse on a whole string: one value, with only whitespace allowed
after it; anything else throws in JavaScript, modelled as none. -/
def parseJson (s : String) : Option Json :=
  match parseCore (s.length + 1) false s.data with
  | some (v, rest) => if (skipWs rest).isEmpty then some v else none
  | none => none

/-- First binding of a key in a parsed object, mirroring property access
on the object JSON.parse builds (the emitted wire format never repeats a
key). -/
def jLookup : List (String × Json) → String → Option Json
  | [], _ => none
  | (k, v) :: fs, key => if k = key then some v else jLookup fs key

/-- Read the quiz-answers object back as string pairs; any non-string
value means the input was not produced by the codec. -/
def qFieldsBack : List (String × Json) → Option (List (String × String))
  | [] => some []
  | (k, Json.jstr v) :: fs => (qFieldsBack fs).map fun q => (k, v) :: q
  | _ => none

/-- View of a parsed JSON value as a SuspendData record: the typed read
of fields l, t and q that the TypeScript cast promises. A value of any
other shape yields none. -/
def asSuspendData : Json → Option SuspendData
  | Json.jobj fs =>
    match jLookup fs "l", jLookup fs "t", jLookup fs "q" with
    | some (Json.jnum l), some (Json.jnum t), some (Json.jobj qf) =>
      (qFieldsBack qf).map fun q => ⟨l, t, q⟩
    | _, _, _ => none
  | _ => none

/-- SuspendDataManager.deserialize: null on blank input, JSON.parse under
a try/catch that converts any parse failure to null, then the typed view
of the parsed value. Total by construction; it never throws. -/
def deserialize (json : String) : Option SuspendData :=
  if isBlank json then none else (parseJson json).bind asSuspendData

/-- Association-list lookup with string keys, mirroring JavaScript
property access answers[questionId]. -/
def strLookup : List (String × String) → String → Option String
  | [], _ => none
  | (k, v) :: fs, key => if k = key then some v else strLookup fs key

/-- Math.round of JavaScript on a rational value: floor of x + 1/2. -/
def jsRound (x : ℚ) : Int := Int.floor (x + 1 / 2)

/-- ScoreCalculator.calculateScore: percentage of keyed questions whose
submitted answer strictly equals the key entry, rounded with Math.round;
0 when the answer key is empty. The loop over Object.entries of the key
is the fold below. -/
def calculateScore (answers correctAnswers : List (String × String)) : Int :=
  let totalQuestions := correctAnswers.length
  if totalQuestions = 0 then 0
  else
    let correctCount : Nat := correctAnswers.foldl
      (fun acc p => if strLookup answers p.1 = some p.2 then acc + 1 else acc) 0
    jsRound ((correctCount : ℚ) / (totalQuestions : ℚ) * 100)

/-- Count of keyed questions answered exactly right, used to state what
the fold in calculateScore computes. -/
def matchCount (answers correctAnswers : List (String × String)) : Nat :=
  correctAnswers.countP fun p => strLookup answers p.1 = some p.2

/-- SCORM completion status vocabulary. -/
inductive CompletionStatus where
  | completed | incomplete | passed | failed | browsed | notAttempted
deriving DecidableEq, Repr

/-- ScoreCalculator.getCompletionStatus: completed when the course has no
quiz, otherwise passed exactly when the score reaches the passing score,
else failed. -/
def getCompletionStatus (score passingScore : ℚ) (hasQuiz : Bool) : CompletionStatus :=
  if !hasQuiz then .completed
  else if passingScore ≤ score then .passed
  else .failed

/-- JavaScript String.prototype.padStart(2, "0"). -/
def padStart2 (s : String) : String :=
  if s.length < 2 then ⟨List.replicate (2 - s.length) '0' ++ s.data⟩ else s

/-- SessionTimer.getSessionTime as a function of the elapsed whole
seconds: HH:MM:SS with each field zero-padded to two digits. -/
def getSessionTimeF (elapsed : Nat) : String :=
  padStart2 (natDec (elapsed / 3600)) ++ ":" ++
  padStart2 (natDec (elapsed % 3600 / 60)) ++ ":" ++
  padStart2 (natDec (elapsed % 60))

/-- SessionTimer.getSessionTime2004 as a function of the elapsed whole
seconds: the 2004 duration form with unpadded fields. -/
def getSessionTime2004F (elapsed : Nat) : String :=
  "PT" ++ natDec (elapsed / 3600) ++ "H" ++
  natDec (elapsed % 3600 / 60) ++ "M" ++ natDec (elapsed % 60) ++ "S"

/-- Calls the generated wrapper script issues against the host LMS API. -/
inductive HostCall where
  | setValue : String → String → HostCall
  | commit : HostCall
  | finish : HostCall
deriving DecidableEq, BEq, Repr

/-- Mutable globals of the generated wrapper: whether API discovery bound
a host object, and the session start epoch (null before initialization).
The generated script keeps no terminated flag; this record therefore has
none. -/
structure BridgeState where
  scormAPI : Bool
  sessionTimer : Option Nat
deriving DecidableEq, Repr

/-- Wrapper-level getSessionTime of the 1.2 script: the falsy guard on
sessionTimer (never set, or set to epoch 0) yields the zero time, else
the elapsed wall-clock seconds are formatted as HH:MM:SS. -/
def wrapperSessionTime12 (st : BridgeState) (now : Nat) : String :=
  match st.sessionTimer with
  | none => "00:00:00"
  | some t0 => if t0 = 0 then "00:00:00" else getSessionTimeF ((now - t0) / 1000)

/-- Wrapper-level getSessionTime of the 2004 script. -/
def wrapperSessionTime2004 (st : BridgeState) (now : Nat) : String :=
  match st.sessionTimer with
  | none => "PT0H0M0S"
  | some t0 => if t0 = 0 then "PT0H0M0S" else getSessionTime2004F ((now - t0) / 1000)

/-- finishSCORM of the generated SCORM 1.2 wrapper: with no API it does
nothing and reports false; otherwise it writes the session time, commits,
calls LMSFinish and reports whether the host answered the literal true.
It mutates none of the wrapper globals. -/
def finishSCORM12 (st : BridgeState) (now : Nat) (hostFinishResult : String) :
    BridgeState × List HostCall × Bool :=
  if !st.scormAPI then (st, [], false)
  else
    (st,
     [HostCall.setValue "cmi.core.session_time" (wrapperSessionTime12 st now),
      HostCall.commit, HostCall.finish],
     hostFinishResult = "true")

/-- finishSCORM of the generated SCORM 2004 wrapper: same control flow
with the 2004 vocabulary (SetValue, Commit, Terminate). -/
def finishSCORM2004 (st : BridgeState) (now : Nat) (hostFinishResult : String) :
    BridgeState × List HostCall × Bool :=
  if !st.scormAPI then (st, [], false)
  else
    (st,
     [HostCall.setValue "cmi.session_time" (wrapperSessionTime2004 st now),
      HostCall.commit, HostCall.finish],
     hostFinishResult = "true")

/-- Host-call trace of two consecutive finishSCORM invocations of the 1.2
wrapper, threading the state the first invocation leaves behind. -/
def finishTwice12 (st : BridgeState) (now1 now2 : Nat) (r1 r2 : String) : List HostCall :=
  let o1 := finishSCORM12 st now1 r1
  let o2 := finishSCORM12 o1.1 now2 r2
  o1.2.1 ++ o2.2.1

/-- Host-call trace of two consecutive finishSCORM invocations of the
2004 wrapper. -/
def finishTwice2004 (st : BridgeState) (now1 now2 : Nat) (r1 r2 : String) : List HostCall :=
  let o1 := finishSCORM2004 st now1 r1
  let o2 := finishSCORM2004 o1.1 now2 r2
  o1.2.1 ++ o2.2.1

/-- SCORM version selector of the service. -/
inductive SCORMVersion where
  | scorm12 | scorm2004
deriving DecidableEq, Repr

/-- Build-time SCORM configuration. The two score thresholds are the
integral percentages the router supplies. -/
structure SCORMConfig where
  version : SCORMVersion
  courseTitle : String
  courseDescription : String
  passingScore : Int
  masteryScore : Int
  maxTimeAllowed : Option String := none

/-- Single-character global replacement, the action of the JavaScript
replace(/c/g, rep) calls in escapeXml. -/
def replaceAllChar (c : Char) (rep : List Char) : List Char → List Char
  | [] => []
  | x :: xs => (if x = c then rep else [x]) ++ replaceAllChar c rep xs

/-- SCORMPackageGenerator.escapeXml: the five sequential replacements of
the source, ampersand first. -/
def escapeXml (text : String) : String :=
  ⟨replaceAllChar apos "&apos;".data
    (replaceAllChar '"' "&quot;".data
      (replaceAllChar '>' "&gt;".data
        (replaceAllChar '<' "&lt;".data
          (replaceAllChar '&' "&amp;".data text.data))))⟩

/-- Character-wise specification of escapeXml: each reserved character
becomes its entity reference, every other character is copied. -/
def escXmlChar (c : Char) : List Char :=
  if c = '&' then ['&', 'a', 'm', 'p', ';']
  else if c = '<' then ['&', 'l', 't', ';']
  else if c = '>' then ['&', 'g', 't', ';']
  else if c = '"' then ['&', 'q', 'u', 'o', 't', ';']
  else if c = apos then ['&', 'a', 'p', 'o', 's', ';']
  else [c]

/-- Character-wise escaping of a whole list, the specification the five
sequential replacements of escapeXml are proved to satisfy. -/
def escXmlList : List Char → List Char
  | [] => []
  | c :: cs => escXmlChar c ++ escXmlList cs

/-- Absence of raw markup-significant characters in a character list:
what embedding escaped text in element content requires beyond the
ampersand discipline. -/
def xmlTextSafe (l : List Char) : Prop :=
  '<' ∉ l ∧ '>' ∉ l ∧ '"' ∉ l ∧ apos ∉ l

/-- Check that every ampersand in the list begins one of the five entity
references escapeXml emits, so the text parses as markup character data. -/
def ampsEscaped : List Char → Bool
  | [] => true
  | c :: r =>
    if c = '&' then
      if r.take 4 = ['a', 'm', 'p', ';'] then ampsEscaped (r.drop 4)
      else if r.take 3 = ['l', 't', ';'] then ampsEscaped (r.drop 3)
      else if r.take 3 = ['g', 't', ';'] then ampsEscaped (r.drop 3)
      else if r.take 5 = ['q', 'u', 'o', 't', ';'] then ampsEscaped (r.drop 5)
      else if r.take 5 = ['a', 'p', 'o', 's', ';'] then ampsEscaped (r.drop 5)
      else false
    else ampsEscaped r
termination_by l => l.length
decreasing_by
  all_goals simp_wf
  all_goals omega

/-- Rendering of (p / 100).toFixed(2) for the integral percentages the
router supplies: one fractional pair of digits after the integer part. -/
def toFixed2Pct (p : Int) : String :=
  (if p < 0 then "-" else "") ++ natDec (p.natAbs / 100) ++ "." ++
    padStart2 (natDec (p.natAbs % 100))

/-- Fixed text of the SCORM 1.2 manifest before the generation
timestamp. -/
def manifest12Head : String :=
  "<?xml version=\"1.0\" encoding=\"UTF-8\"?>\n<manifest identifier=\"com.courseforge."

/-- Fixed text of the SCORM 1.2 manifest between the timestamp and the
organization title. -/
def manifest12A : String :=
  "\" version=\"1.0\"\n          xmlns=\"http://www.imsproject.org/xsd/imscp_rootv1p1p2\"\n          xmlns:adlcp=\"http://www.adlnet.org/xsd/adlcp_rootv1p2\"\n          xmlns:xsi=\"http://www.w3.org/2001/XMLSchema-instance\"\n          xsi:schemaLocation=\"http://www.imsproject.org/xsd/imscp_rootv1p1p2 imscp_rootv1p1p2.xsd\n                              http://www.imsglobal.org/xsd/imsmd_rootv1p2p1 imsmd_rootv1p2p1.xsd\n                              http://www.adlnet.org/xsd/adlcp_rootv1p2 adlcp_rootv1p2.xsd\">\n  \n  <metadata>\n    <schema>ADL SCORM</schema>\n    <schemaversion>1.2</schemaversion>\n  </metadata>\n  \n  <organizations default=\"ORG-1\">\n    <organization identifier=\"ORG-1\">\n      <title>"

/-- Fixed text of the SCORM 1.2 manifest between the two titles. -/
def manifest12B : String :=
  "</title>\n      <item identifier=\"ITEM-1\" identifierref=\"RES-1\">\n        <title>"

/-- Fixed text of the SCORM 1.2 manifest between the item title and the
mastery score. -/
def manifest12C : String :=
  "</title>\n        <adlcp:masteryscore>"

/-- Fixed text of the SCORM 1.2 manifest after the mastery score. -/
def manifest12D : String :=
  "</adlcp:masteryscore>\n      </item>\n    </organization>\n  </organizations>\n  \n  <resources>\n    <resource identifier=\"RES-1\" type=\"webcontent\" adlcp:scormtype=\"sco\" href=\"index.html\">\n      <file href=\"index.html\"/>\n      <file href=\"scorm.js\"/>\n    </resource>\n  </resources>\n  \n</manifest>"

/-- SCORMPackageGenerator.generateManifestSCORM12, with the Date.now()
the template interpolates passed explicitly. -/
def generateManifestSCORM12 (config : SCORMConfig) (now : Nat) : String :=
  manifest12Head ++ natDec now ++ manifest12A ++ escapeXml config.courseTitle ++
    manifest12B ++ escapeXml config.courseTitle ++ manifest12C ++
    intDec config.masteryScore ++ manifest12D

/-- Fixed text of the SCORM 2004 manifest before the generation
timestamp. -/
def manifest2004Head : String :=
  "<?xml version=\"1.0\" encoding=\"UTF-8\"?>\n<manifest identifier=\"com.courseforge."

/-- Fixed text of the SCORM 2004 manifest between the timestamp and the
organization title. -/
def manifest2004A : String :=
  "\" version=\"1.0\"\n          xmlns=\"http://www.imsglobal.org/xsd/imscp_v1p1\"\n          xmlns:adlcp=\"http://www.adlnet.org/xsd/adlcp_v1p3\"\n          xmlns:adlseq=\"http://www.adlnet.org/xsd/adlseq_v1p3\"\n          xmlns:adlnav=\"http://www.adlnet.org/xsd/adlnav_v1p3\"\n          xmlns:imsss=\"http://www.imsglobal.org/xsd/imsss\"\n          xmlns:xsi=\"http://www.w3.org/2001/XMLSchema-instance\"\n          xsi:schemaLocation=\"http://www.imsglobal.org/xsd/imscp_v1p1 imscp_v1p1.xsd\n                              http://www.adlnet.org/xsd/adlcp_v1p3 adlcp_v1p3.xsd\n                              http://www.adlnet.org/xsd/adlseq_v1p3 adlseq_v1p3.xsd\n                              http://www.adlnet.org/xsd/adlnav_v1p3 adlnav_v1p3.xsd\n                              http://www.imsglobal.org/xsd/imsss imsss_v1p0.xsd\">\n  \n  <metadata>\n    <schema>ADL SCORM</schema>\n    <schemaversion>2004 4th Edition</schemaversion>\n  </metadata>\n  \n  <organizations default=\"ORG-1\">\n    <organization identifier=\"ORG-1\">\n      <title>"

/-- Fixed text of the SCORM 2004 manifest between the two titles. -/
def manifest2004B : String :=
  "</title>\n      <item identifier=\"ITEM-1\" identifierref=\"RES-1\">\n        <title>"

/-- Fixed text of the SCORM 2004 manifest between the item title and the
normalized passing measure. -/
def manifest2004C : String :=
  "</title>\n        <imsss:sequencing>\n          <imsss:objectives>\n            <imsss:primaryObjective objectiveID=\"PRIMARY-OBJ\" satisfiedByMeasure=\"true\">\n              <imsss:minNormalizedMeasure>"

/-- Fixed text of the SCORM 2004 manifest after the normalized passing
measure. -/
def manifest2004D : String :=
  "</imsss:minNormalizedMeasure>\n            </imsss:primaryObjective>\n          </imsss:objectives>\n        </imsss:sequencing>\n      </item>\n    </organization>\n  </organizations>\n  \n  <resources>\n    <resource identifier=\"RES-1\" type=\"webcontent\" adlcp:scormType=\"sco\" href=\"index.html\">\n      <file href=\"index.html\"/>\n      <file href=\"scorm.js\"/>\n    </resource>\n  </resources>\n  \n</manifest>"

/-- SCORMPackageGenerator.generateManifestSCORM2004, with the Date.now()
the template interpolates passed explicitly. -/
def generateManifestSCORM2004 (config : SCORMConfig) (now : Nat) : String :=
  manifest2004Head ++ natDec now ++ manifest2004A ++ escapeXml config.courseTitle ++
    manifest2004B ++ escapeXml config.courseTitle ++ manifest2004C ++
    toFixed2Pct config.passingScore ++ manifest2004D

/-- Worst-case suspend-state simulation shared by generatePackage and
validateSuspendData in the SCORM router: lesson index lessonsCount - 1 in
JavaScript arithmetic, the current epoch seconds, and one single-letter
answer per quiz question under keys q0, q1, and so on. -/
def worstCaseSuspendData (lessonsCount : Nat) (nowSec : Int) (quizCount : Nat) : SuspendData :=
  { l := (lessonsCount : Int) - 1,
    t := nowSec,
    q := (List.range quizCount).map fun idx => ("q" ++ natDec idx, "D") }

/-- Concrete oversize suspend state: one 4200-character answer token,
serializing to 4226 UTF-16 units. -/
def oversizeExample : SuspendData := ⟨0, 0, [("a", ⟨List.replicate 4200 'a'⟩)]⟩

/-- Numeric value of a most-significant-first digit list, folded onto an
accumulator; used to express what the digit run of the parser computes. -/
def digitsVal : Nat → List Char → Nat
  | acc, [] => acc
  | acc, c :: cs => digitsVal (acc * 10 + (c.toNat - 48)) cs

/-! ## Basic lemmas about characters and decimal rendering -/

theorem ne_of_toNat_ne {c d : Char} (h : c.toNat ≠ d.toNat) : c ≠ d :=
  fun he => h (he ▸ rfl)

theorem toNat_digitChar (n : Nat) : (digitChar n).toNat = 48 + n % 10 := by
  have h : n % 10 < 10 := Nat.mod_lt _ (by omega)
  unfold digitChar
  generalize hk : n % 10 = k at h ⊢
  interval_cases k <;> rfl

theorem isDigitCh_digitChar (n : Nat) : isDigitCh (digitChar n) = true := by
  simp [isDigitCh, toNat_digitChar]
  omega

theorem natDecAux_congr :
    ∀ fuel1 fuel2 n, n < fuel1 → n < fuel2 → natDecAux fuel1 n = natDecAux fuel2 n := by
  intro fuel1
  induction fuel1 with
  | zero => intro fuel2 n h; omega
  | succ f1 ih =>
    intro fuel2 n h1 h2
    cases fuel2 with
    | zero => omega
    | succ f2 =>
      simp only [natDecAux]
      by_cases hn : n < 10
      · simp [hn]
      · simp only [hn, if_false]
        have hd : n / 10 < n := Nat.div_lt_self (by omega) (by omega)
        rw [ih f2 (n / 10) (by omega) (by omega)]

theorem natDecAux_ne_nil :
    ∀ fuel n, n < fuel → natDecAux fuel n ≠ [] := by
  intro fuel
  cases fuel with
  | zero => intro n h; omega
  | succ f =>
    intro n _
    simp only [natDecAux]
    split <;> simp

theorem natDecL_ne_nil (n : Nat) : natDecL n ≠ [] :=
  natDecAux_ne_nil _ n (by omega)

theorem natDecAux_digits :
    ∀ fuel n c, c ∈ natDecAux fuel n → isDigitCh c = true := by
  intro fuel
  induction fuel with
  | zero => intro n c h; simp [natDecAux] at h
  | succ f ih =>
    intro n c h
    simp only [natDecAux] at h
    by_cases hn : n < 10
    · simp [hn] at h
      subst h
      exact isDigitCh_digitChar n
    · simp [hn, List.mem_append] at h
      rcases h with h | h
      · exact ih _ _ h
      · subst h
        exact isDigitCh_digitChar _

theorem digitsVal_append (xs ys : List Char) :
    ∀ acc, digitsVal acc (xs ++ ys) = digitsVal (digitsVal acc xs) ys := by
  induction xs with
  | nil => intro acc; rfl
  | cons c cs ih =>
    intro acc
    show digitsVal (acc * 10 + (c.toNat - 48)) (cs ++ ys) =
      digitsVal (digitsVal (acc * 10 + (c.toNat - 48)) cs) ys
    exact ih _

theorem digitsVal_natDecAux :
    ∀ fuel n acc, n < fuel →
      digitsVal acc (natDecAux fuel n) = acc * 10 ^ (natDecAux fuel n).length + n := by
  intro fuel
  induction fuel with
  | zero => intro n acc h; omega
  | succ f ih =>
    intro n acc h
    by_cases hn : n < 10
    · rw [show natDecAux (f + 1) n = [digitChar n] from by simp [natDecAux, hn]]
      rw [show digitsVal acc [digitChar n] = acc * 10 + ((digitChar n).toNat - 48) from rfl]
      rw [toNat_digitChar, Nat.mod_eq_of_lt hn]
      simp
    · rw [show natDecAux (f + 1) n = natDecAux f (n / 10) ++ [digitChar (n % 10)]
        from by simp [natDecAux, hn]]
      have hd : n / 10 < n := Nat.div_lt_self (by omega) (by omega)
      rw [digitsVal_append, ih (n / 10) acc (by omega)]
      rw [show ∀ a c, digitsVal a [c] = a * 10 + (c.toNat - 48) from fun a c => rfl]
      rw [toNat_digitChar, List.length_append, List.length_singleton, pow_succ]
      rw [Nat.mod_eq_of_lt (show n % 10 < 10 from Nat.mod_lt _ (by omega))]
      rw [← mul_assoc]
      generalize 10 ^ (natDecAux f (n / 10)).length = P
      generalize acc * P = Q
      omega

theorem digitsVal_natDecL (n : Nat) : digitsVal 0 (natDecL n) = n := by
  have := digitsVal_natDecAux (n + 1) n 0 (by omega)
  simpa [natDecL] using this

theorem natDecL_inj {a b : Nat} (h : natDecL a = natDecL b) : a = b := by
  have ha := digitsVal_natDecL a
  have hb := digitsVal_natDecL b
  rw [h] at ha
  omega

theorem natDecL_lt10 (n : Nat) (h : n < 10) : natDecL n = [digitChar n] := by
  simp [natDecL, natDecAux, h]

theorem natDecL_len_two (n : Nat) (h1 : 10 ≤ n) (h2 : n < 100) :
    natDecL n = [digitChar (n / 10), digitChar (n % 10)] := by
  have hd : n / 10 < 10 := by omega
  have hd1 : 1 ≤ n / 10 := by omega
  simp only [natDecL, natDecAux, Nat.not_lt.mpr h1, if_false]
  have : natDecAux n (n / 10) = natDecAux (n / 10 + 1) (n / 10) :=
    natDecAux_congr n (n / 10 + 1) (n / 10) (by omega) (by omega)
  rw [this]
  simp [natDecAux, hd]

/-! ## Claim C1: serialize failure, its message, and agreement with validate -/

/-- Claim C1: for every SuspendState, serialize fails exactly when the
serialized form exceeds 4096 UTF-16 units, the thrown message reports the
actual length together with the 4096 limit, and validate is false on
exactly the same inputs, so the two checks never disagree. -/
theorem serialize_validate_agree (d : SuspendData) :
    ((∃ e, serialize d = .error e) ↔ MAX_LENGTH < getSize d) ∧
    (validate d = false ↔ MAX_LENGTH < getSize d) ∧
    (∀ e, serialize d = .error e →
      e = "Suspend data exceeds SCORM 1.2 limit: " ++ natDec (getSize d) ++
          " > " ++ natDec MAX_LENGTH ++ " characters") := by
  by_cases h : MAX_LENGTH < jsLen (suspendJson d)
  · refine ⟨⟨fun _ => h, fun _ => ⟨oversizeMsg (getSize d), ?_⟩⟩,
      ⟨fun _ => h, fun _ => ?_⟩, fun e he => ?_⟩
    · simp [serialize, getSize, h]
    · simp [validate, getSize]
      omega
    · simp [serialize, h] at he
      simp [← he, oversizeMsg, getSize]
  · constructor
    · constructor
      · rintro ⟨e, he⟩
        simp [serialize, h] at he
      · intro hlt; exact absurd hlt h
    constructor
    · constructor
      · intro hv
        simp [validate] at hv
        simp [getSize]
        omega
      · intro hlt; exact absurd hlt h
    · intro e he
      simp [serialize, h] at he

theorem jsLenL_append (xs ys : List Char) :
    jsLenL (xs ++ ys) = jsLenL xs + jsLenL ys := by
  induction xs with
  | nil => simp [jsLenL]
  | cons c cs ih =>
    show utf16Units c + jsLenL (cs ++ ys) = utf16Units c + jsLenL cs + jsLenL ys
    rw [ih]
    omega

theorem escJsonList_replicate_a (n : Nat) :
    escJsonList (List.replicate n 'a') = List.replicate n 'a' := by
  induction n with
  | zero => rfl
  | succ m ih =>
    show escJsonChar 'a' ++ escJsonList (List.replicate m 'a') = _
    rw [ih]
    rfl

theorem jsLenL_replicate_a (n : Nat) :
    jsLenL (List.replicate n 'a') = n := by
  induction n with
  | zero => rfl
  | succ m ih =>
    show utf16Units 'a' + jsLenL (List.replicate m 'a') = m + 1
    rw [ih]
    simp [utf16Units]
    omega

theorem suspendJsonL_oversize :
    suspendJsonL oversizeExample =
      ['{', '"', 'l', '"', ':', '0', ',', '"', 't', '"', ':', '0', ',',
       '"', 'q', '"', ':', '{', '"', 'a', '"', ':', '"'] ++
      (List.replicate 4200 'a' ++ ['"', '}', '}']) := by
  dsimp only [suspendJsonL, oversizeExample]
  rw [show qFieldsL [("a", (⟨List.replicate 4200 'a'⟩ : String))] =
      quoteL "a" ++ ':' :: quoteL ⟨List.replicate 4200 'a'⟩ from rfl]
  rw [show quoteL (⟨List.replicate 4200 'a'⟩ : String) =
      '"' :: (escJsonList (List.replicate 4200 'a') ++ ['"']) from rfl]
  rw [escJsonList_replicate_a]
  rw [show quoteL "l" = ['"', 'l', '"'] from rfl]
  rw [show quoteL "t" = ['"', 't', '"'] from rfl]
  rw [show quoteL "q" = ['"', 'q', '"'] from rfl]
  rw [show quoteL "a" = ['"', 'a', '"'] from rfl]
  rw [show intDecL 0 = ['0'] from rfl]
  simp only [List.cons_append, List.append_assoc, List.nil_append, List.append_nil]

theorem getSize_oversizeExample : getSize oversizeExample = 4226 := by
  show jsLenL (suspendJsonL oversizeExample) = 4226
  rw [suspendJsonL_oversize, jsLenL_append, jsLenL_append, jsLenL_replicate_a]
  decide

/-- Witness for C1 at a concrete oversize state: a single 4200-character
answer makes serialize fail. -/
theorem serialize_validate_agree_witness :
    ∃ e, serialize oversizeExample = .error e :=
  (serialize_validate_agree oversizeExample).1.mpr
    (by rw [getSize_oversizeExample]; norm_num [MAX_LENGTH])

/-! ## Claim C3: deserialize is total and fails soft -/

/-- Claim C3: deserialize returns null on empty or whitespace-only input,
returns null rather than throwing whenever JSON.parse rejects the input,
and on every input yields either a state or null, never a hard error. -/
theorem deserialize_total (s : String) :
    (isBlank s = true → deserialize s = none) ∧
    (parseJson s = none → deserialize s = none) ∧
    (deserialize s = none ∨ ∃ d, deserialize s = some d) := by
  refine ⟨fun h => ?_, fun h => ?_, ?_⟩
  · simp [deserialize, h]
  · by_cases hb : isBlank s
    · simp [deserialize, hb]
    · simp [deserialize, hb, h]
  · cases hd : deserialize s with
    | none => exact Or.inl rfl
    | some d => exact Or.inr ⟨d, rfl⟩

/-- Witness for C3 at the empty string. -/
theorem deserialize_total_witness : deserialize "" = none :=
  (deserialize_total "").1 (by decide)

/-! ## Claim C5: completion status -/

/-- Claim C5: with no quiz the status is completed whatever the scores;
with a quiz it is passed exactly when the score reaches the passing
score, equality counting as a pass, and failed otherwise. -/
theorem completionStatus_spec (score passingScore : ℚ) :
    getCompletionStatus score passingScore false = .completed ∧
    (getCompletionStatus score passingScore true = .passed ↔ passingScore ≤ score) ∧
    (getCompletionStatus score passingScore true = .failed ↔ ¬ passingScore ≤ score) ∧
    getCompletionStatus passingScore passingScore true = .passed := by
  refine ⟨rfl, ?_, ?_, ?_⟩
  · by_cases h : passingScore ≤ score <;> simp [getCompletionStatus, h]
  · by_cases h : passingScore ≤ score <;> simp [getCompletionStatus, h]
  · simp [getCompletionStatus]

/-! ## Claim C6: session time formats -/

theorem length_padStart2 (s : String) : (padStart2 s).length = max 2 s.length := by
  by_cases h : s.length < 2
  · simp only [padStart2, h, if_true]
    show (List.replicate (2 - s.length) '0' ++ s.data).length = max 2 s.length
    simp [List.length_append, List.length_replicate]
    omega
  · simp [padStart2, h]
    omega

theorem natDec_length_le_two (n : Nat) (h : n < 100) : (natDec n).length ≤ 2 := by
  by_cases h1 : n < 10
  · show (natDecL n).length ≤ 2
    rw [natDecL_lt10 n h1]
    simp
  · show (natDecL n).length ≤ 2
    rw [natDecL_len_two n (by omega) h]
    simp

/-- Claim C6: the 1.2 rendering is colon-separated hour, minute and
second fields each zero-padded to exactly two digits (hours at least
two, unbounded above), the 2004 rendering is the unpadded PT duration
form, and 3661 elapsed seconds render as 01:01:01 and PT1H1M1S. -/
theorem sessionTime_formats (elapsed : Nat) :
    getSessionTimeF elapsed =
      padStart2 (natDec (elapsed / 3600)) ++ ":" ++
      padStart2 (natDec (elapsed % 3600 / 60)) ++ ":" ++
      padStart2 (natDec (elapsed % 60)) ∧
    (padStart2 (natDec (elapsed % 3600 / 60))).length = 2 ∧
    (padStart2 (natDec (elapsed % 60))).length = 2 ∧
    2 ≤ (padStart2 (natDec (elapsed / 3600))).length ∧
    getSessionTime2004F elapsed =
      "PT" ++ natDec (elapsed / 3600) ++ "H" ++
      natDec (elapsed % 3600 / 60) ++ "M" ++ natDec (elapsed % 60) ++ "S" ∧
    getSessionTimeF 3661 = "01:01:01" ∧
    getSessionTime2004F 3661 = "PT1H1M1S" := by
  have hm : elapsed % 3600 / 60 < 60 := by omega
  have hs : elapsed % 60 < 60 := by omega
  refine ⟨rfl, ?_, ?_, ?_, rfl, by decide, by decide⟩
  · rw [length_padStart2]
    have := natDec_length_le_two (elapsed % 3600 / 60) (by omega)
    omega
  · rw [length_padStart2]
    have := natDec_length_le_two (elapsed % 60) (by omega)
    omega
  · rw [length_padStart2]
    omega

/-! ## Claim C10: worst-case simulation and range-free validation -/

/-- Claim C10: the worst-case simulation used by generatePackage and
validateSuspendData sets the simulated lesson index to lessonsCount - 1,
which is -1 for a project with zero lessons, below the documented
lessonIndex range; validate nevertheless accepts exactly on serialized
length, never on field ranges, and serialize succeeds on any such state
whose length fits, so the pre-flight check is total for all counts. -/
theorem worstCase_preflight (t : Int) (lessonsCount quizCount : Nat) :
    (worstCaseSuspendData 0 t quizCount).l = -1 ∧
    (worstCaseSuspendData 0 t quizCount).l < 0 ∧
    (∀ d : SuspendData, validate d = decide (getSize d ≤ MAX_LENGTH)) ∧
    (validate (worstCaseSuspendData lessonsCount t quizCount) = true ↔
      getSize (worstCaseSuspendData lessonsCount t quizCount) ≤ MAX_LENGTH) ∧
    (getSize (worstCaseSuspendData lessonsCount t quizCount) ≤ MAX_LENGTH →
      ∃ s, serialize (worstCaseSuspendData lessonsCount t quizCount) = .ok s) := by
  refine ⟨?_, ?_, fun d => rfl, ?_,
    fun h => ⟨suspendJson (worstCaseSuspendData lessonsCount t quizCount), ?_⟩⟩
  · simp [worstCaseSuspendData]
  · simp [worstCaseSuspendData]
  · simp [validate, getSize]
  · simp [serialize]
    exact h

/-- Witness for C10 at zero lessons, zero questions, epoch zero. -/
theorem worstCase_preflight_witness :
    ∃ s, serialize (worstCaseSuspendData 0 0 0) = .ok s :=
  (worstCase_preflight 0 0 0).2.2.2.2 (by decide)

/-! ## Claim C7: the generated terminate sequence is not idempotent -/

/-- Counterexample to claim C7: with the API bound, two consecutive
finishSCORM invocations of either generated wrapper issue the commit and
the terminate primitive twice, not once, because the generated script
keeps no Terminated state. -/
theorem finish_twice_counterexample :
    ((finishTwice12 ⟨true, some 0⟩ 0 0 "true" "true").count HostCall.finish = 2 ∧
     (finishTwice12 ⟨true, some 0⟩ 0 0 "true" "true").count HostCall.commit = 2 ∧
     ¬ (finishTwice12 ⟨true, some 0⟩ 0 0 "true" "true").count HostCall.finish = 1) ∧
    ((finishTwice2004 ⟨true, some 0⟩ 0 0 "true" "true").count HostCall.finish = 2 ∧
     (finishTwice2004 ⟨true, some 0⟩ 0 0 "true" "true").count HostCall.commit = 2 ∧
     ¬ (finishTwice2004 ⟨true, some 0⟩ 0 0 "true" "true").count HostCall.finish = 1) := by
  decide

theorem beq_setValue_finish (k v : String) :
    (HostCall.setValue k v == HostCall.finish) = false := rfl

theorem beq_setValue_commit (k v : String) :
    (HostCall.setValue k v == HostCall.commit) = false := rfl

theorem beq_commit_finish : (HostCall.commit == HostCall.finish) = false := rfl

theorem beq_finish_commit : (HostCall.finish == HostCall.commit) = false := rfl

theorem beq_commit_commit : (HostCall.commit == HostCall.commit) = true := rfl

theorem beq_finish_finish : (HostCall.finish == HostCall.finish) = true := rfl

/-- Amended claim C7: whenever the API handle is bound, each finishSCORM
invocation of either wrapper issues one commit and one terminate call and
leaves the wrapper state unchanged, so a second invocation repeats the
full host-call sequence instead of being a no-op. -/
theorem finish_twice_repeats (t0 : Option Nat) (now1 now2 : Nat) (r1 r2 : String)
    (api : Bool) (h : api = true) :
    (finishTwice12 ⟨api, t0⟩ now1 now2 r1 r2).count HostCall.finish = 2 ∧
    (finishTwice12 ⟨api, t0⟩ now1 now2 r1 r2).count HostCall.commit = 2 ∧
    (finishSCORM12 ⟨api, t0⟩ now1 r1).1 = ⟨api, t0⟩ ∧
    (finishSCORM12 (finishSCORM12 ⟨api, t0⟩ now1 r1).1 now2 r2).2.1 =
      [HostCall.setValue "cmi.core.session_time" (wrapperSessionTime12 ⟨api, t0⟩ now2),
       HostCall.commit, HostCall.finish] ∧
    (finishTwice2004 ⟨api, t0⟩ now1 now2 r1 r2).count HostCall.finish = 2 ∧
    (finishTwice2004 ⟨api, t0⟩ now1 now2 r1 r2).count HostCall.commit = 2 ∧
    (finishSCORM2004 ⟨api, t0⟩ now1 r1).1 = ⟨api, t0⟩ ∧
    (finishSCORM2004 (finishSCORM2004 ⟨api, t0⟩ now1 r1).1 now2 r2).2.1 =
      [HostCall.setValue "cmi.session_time" (wrapperSessionTime2004 ⟨api, t0⟩ now2),
       HostCall.commit, HostCall.finish] := by
  subst h
  refine ⟨?_, ?_, rfl, rfl, ?_, ?_, rfl, rfl⟩ <;>
    simp [finishTwice12, finishTwice2004, finishSCORM12, finishSCORM2004,
      List.count_append, List.count_cons, List.count_nil,
      beq_setValue_finish, beq_setValue_commit, beq_commit_finish,
      beq_finish_commit, beq_commit_commit, beq_finish_finish]

/-- Witness for C7's amended statement at a concrete bound-API state. -/
theorem finish_twice_repeats_witness :
    (finishTwice12 ⟨true, some 0⟩ 0 0 "true" "false").count HostCall.finish = 2 :=
  (finish_twice_repeats (some 0) 0 0 "true" "false" true rfl).1

/-! ## Claim C4: score calculation -/

theorem foldl_matchCount (answers : List (String × String)) :
    ∀ (l : List (String × String)) (acc : Nat),
      l.foldl (fun acc p => if strLookup answers p.1 = some p.2 then acc + 1 else acc) acc =
        acc + matchCount answers l := by
  intro l
  induction l with
  | nil => intro acc; simp [matchCount]
  | cons p ps ih =>
    intro acc
    by_cases h : strLookup answers p.1 = some p.2 <;>
      simp [List.foldl, h, ih, matchCount, List.countP_cons] <;> omega

theorem jsRound_abs_le (x : ℚ) : |(jsRound x : ℚ) - x| ≤ 1 / 2 := by
  have h1 : (jsRound x : ℚ) ≤ x + 1 / 2 := Int.floor_le (x + 1 / 2)
  have h2 : x + 1 / 2 < (jsRound x : ℚ) + 1 := Int.lt_floor_add_one (x + 1 / 2)
  rw [abs_le]
  constructor <;> linarith

theorem jsRound_nonneg {x : ℚ} (h : 0 ≤ x) : 0 ≤ jsRound x := by
  have : (0 : ℚ) ≤ x + 1 / 2 := by linarith
  exact Int.le_floor.mpr (by exact_mod_cast this)

theorem jsRound_le_100 {x : ℚ} (h : x ≤ 100) : jsRound x ≤ 100 := by
  have : x + 1 / 2 < (100 : ℤ) + 1 := by push_cast; linarith
  exact Int.floor_le_iff.mpr (by exact_mod_cast this)

/-- Claim C4: calculateScore is 0 on an empty answer key whatever the
answers, always lands in 0..100, and on a non-empty key differs from the
exact match percentage by at most one half, that is, it is the nearest
integer under Math.round. -/
theorem calculateScore_spec (answers correctAnswers : List (String × String)) :
    (correctAnswers = [] → calculateScore answers correctAnswers = 0) ∧
    0 ≤ calculateScore answers correctAnswers ∧
    calculateScore answers correctAnswers ≤ 100 ∧
    (correctAnswers ≠ [] →
      |(calculateScore answers correctAnswers : ℚ) -
        (matchCount answers correctAnswers : ℚ) / (correctAnswers.length : ℚ) * 100| ≤
        1 / 2) := by
  by_cases hk : correctAnswers = []
  · subst hk
    refine ⟨fun _ => rfl, ?_, ?_, fun h => absurd rfl h⟩ <;> simp [calculateScore]
  · have hlen : 0 < correctAnswers.length := List.length_pos.mpr hk
    have hscore : calculateScore answers correctAnswers =
        jsRound ((matchCount answers correctAnswers : ℚ) /
          (correctAnswers.length : ℚ) * 100) := by
      simp only [calculateScore, foldl_matchCount answers correctAnswers 0, Nat.zero_add]
      rw [if_neg (by omega)]
    have hle : matchCount answers correctAnswers ≤ correctAnswers.length :=
      List.countP_le_length _
    have hq0 : (0 : ℚ) < (correctAnswers.length : ℚ) := by exact_mod_cast hlen
    have hx0 : (0 : ℚ) ≤ (matchCount answers correctAnswers : ℚ) /
        (correctAnswers.length : ℚ) * 100 := by positivity
    have hx100 : (matchCount answers correctAnswers : ℚ) /
        (correctAnswers.length : ℚ) * 100 ≤ 100 := by
      have hdiv : (matchCount answers correctAnswers : ℚ) /
          (correctAnswers.length : ℚ) ≤ 1 := by
        rw [div_le_one hq0]
        exact_mod_cast hle
      nlinarith
    refine ⟨fun h => absurd h hk, ?_, ?_, fun _ => ?_⟩
    · rw [hscore]; exact jsRound_nonneg hx0
    · rw [hscore]; exact jsRound_le_100 hx100
    · rw [hscore]; exact jsRound_abs_le _

/-- Witness for C4 on a concrete two-question key with one right answer. -/
theorem calculateScore_spec_witness :
    |(calculateScore [("q1", "A")] [("q1", "A"), ("q2", "B")] : ℚ) -
      (matchCount [("q1", "A")] [("q1", "A"), ("q2", "B")] : ℚ) /
        (([("q1", "A"), ("q2", "B")] : List (String × String)).length : ℚ) * 100| ≤ 1 / 2 :=
  (calculateScore_spec [("q1", "A")] [("q1", "A"), ("q2", "B")]).2.2.2 (by simp)

/-! ## Claim C8: manifest generation and the embedded timestamp -/

theorem str_ext {a b : String} (h : a.data = b.data) : a = b :=
  congrArg String.mk h

theorem natDec_inj {a b : Nat} (h : natDec a = natDec b) : a = b :=
  natDecL_inj (congrArg String.data h)

/-- Counterexample to claim C8: the manifest identifier embeds Date.now(),
so the same config compiled at two different instants yields two
different documents, for either SCORM version. -/
theorem manifest_not_pure_counterexample :
    generateManifestSCORM12 ⟨.scorm12, "Course", "", 70, 80, none⟩ 0 ≠
      generateManifestSCORM12 ⟨.scorm12, "Course", "", 70, 80, none⟩ 1 ∧
    generateManifestSCORM2004 ⟨.scorm2004, "Course", "", 70, 80, none⟩ 0 ≠
      generateManifestSCORM2004 ⟨.scorm2004, "Course", "", 70, 80, none⟩ 1 := by
  constructor <;> decide

/-- Amended claim C8: manifest generation is a pure function of the
config and the generation instant together; with the config fixed, two
generated documents coincide exactly when the embedded Date.now() values
coincide. -/
theorem manifest_pure_in_config_and_time (config : SCORMConfig) (t1 t2 : Nat) :
    (generateManifestSCORM12 config t1 = generateManifestSCORM12 config t2 ↔ t1 = t2) ∧
    (generateManifestSCORM2004 config t1 = generateManifestSCORM2004 config t2 ↔ t1 = t2) := by
  constructor
  · constructor
    · intro h
      have hd := congrArg String.data h
      simp only [generateManifestSCORM12, String.data_append, List.append_assoc] at hd
      have h1 := List.append_cancel_left hd
      have h2 := List.append_cancel_right h1
      exact natDecL_inj h2
    · rintro rfl; rfl
  · constructor
    · intro h
      have hd := congrArg String.data h
      simp only [generateManifestSCORM2004, String.data_append, List.append_assoc] at hd
      have h1 := List.append_cancel_left hd
      have h2 := List.append_cancel_right h1
      exact natDecL_inj h2
    · rintro rfl; rfl

/-! ## Claim C9: titles are escaped in the manifest -/

theorem replaceAllChar_append (c : Char) (rep : List Char) (xs ys : List Char) :
    replaceAllChar c rep (xs ++ ys) = replaceAllChar c rep xs ++ replaceAllChar c rep ys := by
  induction xs with
  | nil => rfl
  | cons x xs ih =>
    show (if x = c then rep else [x]) ++ replaceAllChar c rep (xs ++ ys) = _
    rw [ih]
    simp [replaceAllChar, List.append_assoc]

theorem escXml_chain (l : List Char) :
    replaceAllChar apos ['&', 'a', 'p', 'o', 's', ';']
      (replaceAllChar '"' ['&', 'q', 'u', 'o', 't', ';']
        (replaceAllChar '>' ['&', 'g', 't', ';']
          (replaceAllChar '<' ['&', 'l', 't', ';']
            (replaceAllChar '&' ['&', 'a', 'm', 'p', ';'] l)))) = escXmlList l := by
  induction l with
  | nil => rfl
  | cons c cs ih =>
    rw [show replaceAllChar '&' ['&', 'a', 'm', 'p', ';'] (c :: cs) =
        (if c = '&' then ['&', 'a', 'm', 'p', ';'] else [c]) ++
          replaceAllChar '&' ['&', 'a', 'm', 'p', ';'] cs from rfl]
    rw [replaceAllChar_append, replaceAllChar_append, replaceAllChar_append,
      replaceAllChar_append]
    rw [ih]
    show _ ++ escXmlList cs = escXmlChar c ++ escXmlList cs
    congr 1
    by_cases h1 : c = '&'
    · subst h1; decide
    by_cases h2 : c = '<'
    · subst h2; decide
    by_cases h3 : c = '>'
    · subst h3; decide
    by_cases h4 : c = '"'
    · subst h4; decide
    by_cases h5 : c = apos
    · subst h5; decide
    · simp [replaceAllChar, escXmlChar, h1, h2, h3, h4, h5]

theorem escapeXml_data (s : String) :
    (escapeXml s).data = escXmlList s.data := by
  show replaceAllChar apos _ (replaceAllChar '"' _ (replaceAllChar '>' _
    (replaceAllChar '<' _ (replaceAllChar '&' _ s.data)))) = escXmlList s.data
  rw [show ("&apos;" : String).data = ['&', 'a', 'p', 'o', 's', ';'] from rfl,
    show ("&quot;" : String).data = ['&', 'q', 'u', 'o', 't', ';'] from rfl,
    show ("&gt;" : String).data = ['&', 'g', 't', ';'] from rfl,
    show ("&lt;" : String).data = ['&', 'l', 't', ';'] from rfl,
    show ("&amp;" : String).data = ['&', 'a', 'm', 'p', ';'] from rfl]
  exact escXml_chain s.data

theorem escXmlChar_safe (c : Char) :
    '<' ∉ escXmlChar c ∧ '>' ∉ escXmlChar c ∧ '"' ∉ escXmlChar c ∧ apos ∉ escXmlChar c := by
  unfold escXmlChar
  split_ifs with h1 h2 h3 h4 h5
  · exact ⟨by decide, by decide, by decide, by decide⟩
  · exact ⟨by decide, by decide, by decide, by decide⟩
  · exact ⟨by decide, by decide, by decide, by decide⟩
  · exact ⟨by decide, by decide, by decide, by decide⟩
  · exact ⟨by decide, by decide, by decide, by decide⟩
  · refine ⟨?_, ?_, ?_, ?_⟩ <;> simp [h2, h3, h4, h5] <;> tauto

theorem escXmlList_safe (l : List Char) : xmlTextSafe (escXmlList l) := by
  induction l with
  | nil => exact ⟨by simp [escXmlList], by simp [escXmlList], by simp [escXmlList],
      by simp [escXmlList]⟩
  | cons c cs ih =>
    have hc := escXmlChar_safe c
    refine ⟨?_, ?_, ?_, ?_⟩ <;>
      · show _ ∉ escXmlChar c ++ escXmlList cs
        rw [List.mem_append]
        rintro (h | h)
        · first
          | exact hc.1 h
          | exact hc.2.1 h
          | exact hc.2.2.1 h
          | exact hc.2.2.2 h
        · first
          | exact ih.1 h
          | exact ih.2.1 h
          | exact ih.2.2.1 h
          | exact ih.2.2.2 h

theorem ampsEscaped_escXmlChar (c : Char) (rest : List Char)
    (h : ampsEscaped rest = true) : ampsEscaped (escXmlChar c ++ rest) = true := by
  unfold escXmlChar
  split_ifs with h1 h2 h3 h4 h5
  · simpa [ampsEscaped] using h
  · simpa [ampsEscaped] using h
  · simpa [ampsEscaped] using h
  · simpa [ampsEscaped] using h
  · simpa [ampsEscaped] using h
  · simpa [ampsEscaped, h1] using h

theorem ampsEscaped_escXmlList (l : List Char) : ampsEscaped (escXmlList l) = true := by
  induction l with
  | nil => simp [escXmlList, ampsEscaped]
  | cons c cs ih => exact ampsEscaped_escXmlChar c _ ih

/-- Claim C9: every occurrence of the course title in either generated
manifest is the escapeXml image of the title; escapeXml rewrites each of
the reserved characters to its entity reference; and the escaped text
contains no raw angle bracket, quote or apostrophe and every ampersand
in it begins an entity reference, so the insertion parses as character
data and the document stays well-formed. -/
theorem manifest_escapes_title (config : SCORMConfig) (now : Nat) :
    (∃ pre mid post : String,
      generateManifestSCORM12 config now =
        pre ++ escapeXml config.courseTitle ++ mid ++
          escapeXml config.courseTitle ++ post) ∧
    (∃ pre mid post : String,
      generateManifestSCORM2004 config now =
        pre ++ escapeXml config.courseTitle ++ mid ++
          escapeXml config.courseTitle ++ post) ∧
    (escapeXml config.courseTitle).data = escXmlList config.courseTitle.data ∧
    escXmlChar '<' = ['&', 'l', 't', ';'] ∧
    escXmlChar '&' = ['&', 'a', 'm', 'p', ';'] ∧
    escXmlChar '"' = ['&', 'q', 'u', 'o', 't', ';'] ∧
    xmlTextSafe (escapeXml config.courseTitle).data ∧
    ampsEscaped (escapeXml config.courseTitle).data = true := by
  refine ⟨⟨manifest12Head ++ natDec now ++ manifest12A, manifest12B,
      manifest12C ++ intDec config.masteryScore ++ manifest12D, ?_⟩,
    ⟨manifest2004Head ++ natDec now ++ manifest2004A, manifest2004B,
      manifest2004C ++ toFixed2Pct config.passingScore ++ manifest2004D, ?_⟩,
    escapeXml_data _, by decide, by decide, by decide, ?_, ?_⟩
  · apply str_ext
    simp [generateManifestSCORM12, String.data_append, List.append_assoc]
  · apply str_ext
    simp [generateManifestSCORM2004, String.data_append, List.append_assoc]
  · rw [escapeXml_data]
    exact escXmlList_safe _
  · rw [escapeXml_data]
    exact ampsEscaped_escXmlList _

/-! ## Claim C2: parsing inverts the codec rendering -/

theorem skipWs_not (c : Char) (cs : List Char) (h : isJsonWs c = false) :
    skipWs (c :: cs) = c :: cs := by
  simp [skipWs, h]

theorem hexVal_hexDigitCh (k : Nat) (h : k < 16) : hexVal (hexDigitCh k) = some k := by
  interval_cases k <;> decide

theorem psb_close (X : List Char) : parseStrBody ('"' :: X) = some ([], X) := by
  rw [parseStrBody.eq_def]
  rfl

theorem psb_esc_quote (X : List Char) :
    parseStrBody ('\\' :: '"' :: X) = (parseStrBody X).map fun p => ('"' :: p.1, p.2) := by
  rw [parseStrBody.eq_def]
  rfl

theorem psb_esc_backslash (X : List Char) :
    parseStrBody ('\\' :: '\\' :: X) = (parseStrBody X).map fun p => ('\\' :: p.1, p.2) := by
  rw [parseStrBody.eq_def]
  rfl

theorem psb_esc_slash (X : List Char) :
    parseStrBody ('\\' :: '/' :: X) = (parseStrBody X).map fun p => ('/' :: p.1, p.2) := by
  rw [parseStrBody.eq_def]
  rfl

theorem psb_esc_b (X : List Char) :
    parseStrBody ('\\' :: 'b' :: X) = (parseStrBody X).map fun p => ('\x08' :: p.1, p.2) := by
  rw [parseStrBody.eq_def]
  rfl

theorem psb_esc_f (X : List Char) :
    parseStrBody ('\\' :: 'f' :: X) = (parseStrBody X).map fun p => ('\x0c' :: p.1, p.2) := by
  rw [parseStrBody.eq_def]
  rfl

theorem psb_esc_n (X : List Char) :
    parseStrBody ('\\' :: 'n' :: X) = (parseStrBody X).map fun p => ('\n' :: p.1, p.2) := by
  rw [parseStrBody.eq_def]
  rfl

theorem psb_esc_r (X : List Char) :
    parseStrBody ('\\' :: 'r' :: X) = (parseStrBody X).map fun p => ('\r' :: p.1, p.2) := by
  rw [parseStrBody.eq_def]
  rfl

theorem psb_esc_t (X : List Char) :
    parseStrBody ('\\' :: 't' :: X) = (parseStrBody X).map fun p => ('\t' :: p.1, p.2) := by
  rw [parseStrBody.eq_def]
  rfl

theorem psb_lit (c : Char) (X : List Char) (h1 : c ≠ '"') (h2 : c ≠ '\\') :
    parseStrBody (c :: X) = (parseStrBody X).map fun p => (c :: p.1, p.2) := by
  rw [parseStrBody.eq_def]
  simp [h1, h2]

theorem psb_u (h3 h4 : Char) (a b : Nat) (X : List Char)
    (ha : hexVal h3 = some a) (hb : hexVal h4 = some b)
    (hlt : ((0 * 16 + 0) * 16 + a) * 16 + b < 0xd800) :
    parseStrBody ('\\' :: 'u' :: '0' :: '0' :: h3 :: h4 :: X) =
      (parseStrBody X).map
        fun p => (Char.ofNat (((0 * 16 + 0) * 16 + a) * 16 + b) :: p.1, p.2) := by
  rw [parseStrBody.eq_def]
  dsimp only
  simp only [Char.reduceEq, reduceIte]
  rw [show hexVal '0' = some 0 from rfl, ha, hb]
  dsimp only
  rw [if_pos hlt]

theorem parseStrBody_esc (s : List Char) :
    ∀ rest : List Char, parseStrBody (escJsonList s ++ '"' :: rest) = some (s, rest) := by
  induction s with
  | nil => intro rest; exact psb_close rest
  | cons c cs ih =>
    intro rest
    rw [show escJsonList (c :: cs) = escJsonChar c ++ escJsonList cs from rfl,
      List.append_assoc]
    unfold escJsonChar
    split_ifs with h1 h2 h3 h4 h5 h6 h7 h8
    · subst h1
      show parseStrBody ('\\' :: '"' :: (escJsonList cs ++ '"' :: rest)) = _
      rw [psb_esc_quote, ih]
      rfl
    · subst h2
      show parseStrBody ('\\' :: '\\' :: (escJsonList cs ++ '"' :: rest)) = _
      rw [psb_esc_backslash, ih]
      rfl
    · subst h3
      show parseStrBody ('\\' :: 'b' :: (escJsonList cs ++ '"' :: rest)) = _
      rw [psb_esc_b, ih]
      rfl
    · subst h4
      show parseStrBody ('\\' :: 't' :: (escJsonList cs ++ '"' :: rest)) = _
      rw [psb_esc_t, ih]
      rfl
    · subst h5
      show parseStrBody ('\\' :: 'n' :: (escJsonList cs ++ '"' :: rest)) = _
      rw [psb_esc_n, ih]
      rfl
    · subst h6
      show parseStrBody ('\\' :: 'f' :: (escJsonList cs ++ '"' :: rest)) = _
      rw [psb_esc_f, ih]
      rfl
    · subst h7
      show parseStrBody ('\\' :: 'r' :: (escJsonList cs ++ '"' :: rest)) = _
      rw [psb_esc_r, ih]
      rfl
    · -- low control character, emitted as a Unicode escape
      have hv16 : c.toNat / 16 < 16 := by omega
      have hm16 : c.toNat % 16 < 16 := by omega
      show parseStrBody ('\\' :: 'u' :: '0' :: '0' :: hexDigitCh (c.toNat / 16) ::
        hexDigitCh (c.toNat % 16) :: (escJsonList cs ++ '"' :: rest)) = _
      rw [psb_u _ _ _ _ _ (hexVal_hexDigitCh _ hv16) (hexVal_hexDigitCh _ hm16) (by omega),
        ih]
      rw [show ((0 * 16 + 0) * 16 + c.toNat / 16) * 16 + c.toNat % 16 = c.toNat
        from by omega, Char.ofNat_toNat]
      rfl
    · -- ordinary character, copied verbatim
      show parseStrBody (c :: (escJsonList cs ++ '"' :: rest)) = _
      rw [psb_lit c _ h1 h2, ih]
      rfl

theorem takeDigits_digits (ds : List Char) :
    ∀ (rest : List Char) (acc : Nat), (∀ c ∈ ds, isDigitCh c = true) →
      headIsDigit rest = false →
      takeDigits (ds ++ rest) acc = (digitsVal acc ds, rest) := by
  induction ds with
  | nil =>
    intro rest acc _ hrest
    cases rest with
    | nil => rfl
    | cons r rs =>
      have hne : isDigitCh r = false := hrest
      show takeDigits (r :: rs) acc = (acc, r :: rs)
      rw [show takeDigits (r :: rs) acc =
        if isDigitCh r then takeDigits rs (acc * 10 + (r.toNat - 48)) else (acc, r :: rs)
        from rfl, hne]
      simp
  | cons c cs ih =>
    intro rest acc hd hrest
    have hc : isDigitCh c = true := hd c (by simp)
    show takeDigits (c :: (cs ++ rest)) acc = _
    rw [show takeDigits (c :: (cs ++ rest)) acc =
      if isDigitCh c then takeDigits (cs ++ rest) (acc * 10 + (c.toNat - 48))
      else (acc, c :: (cs ++ rest)) from rfl, hc]
    simp only [if_true]
    rw [ih rest _ (fun x hx => hd x (by simp [hx])) hrest]
    rfl

theorem parseNatNum_natDecL (n : Nat) (rest : List Char) (h : headIsDigit rest = false) :
    parseNatNum (natDecL n ++ rest) = some (n, rest) := by
  obtain ⟨c, cs, hcc⟩ : ∃ c cs, natDecL n = c :: cs := by
    cases hx : natDecL n with
    | nil => exact absurd hx (natDecL_ne_nil n)
    | cons c cs => exact ⟨c, cs, rfl⟩
  have hall : ∀ x ∈ natDecL n, isDigitCh x = true := fun x hx => natDecAux_digits _ _ x hx
  have hc : isDigitCh c = true := hall c (by rw [hcc]; simp)
  rw [hcc]
  show parseNatNum (c :: (cs ++ rest)) = some (n, rest)
  simp only [parseNatNum, hc, if_true]
  rw [takeDigits_digits cs rest _ (fun x hx => hall x (by rw [hcc]; simp [hx])) h]
  have : digitsVal (c.toNat - 48) cs = digitsVal 0 (natDecL n) := by
    rw [hcc]
    show digitsVal (c.toNat - 48) cs = digitsVal (0 * 10 + (c.toNat - 48)) cs
    norm_num
  rw [this, digitsVal_natDecL]

theorem digit_ne (c : Char) (hc : isDigitCh c = true) (d : Char)
    (hd : d.toNat < 48 ∨ 57 < d.toNat) : c ≠ d := by
  simp [isDigitCh] at hc
  exact ne_of_toNat_ne (by omega)

theorem parseNumber_intDecL (i : Int) (rest : List Char) (h : headIsDigit rest = false) :
    parseNumber (intDecL i ++ rest) = some (i, rest) := by
  by_cases hi : i < 0
  · simp only [intDecL, hi, if_true, List.cons_append]
    simp only [parseNumber, if_pos rfl]
    rw [parseNatNum_natDecL _ _ h]
    show some (-(↑i.natAbs : Int), rest) = some (i, rest)
    rw [show -(↑i.natAbs : Int) = i from by omega]
  · simp only [intDecL, hi, if_false]
    obtain ⟨c, cs, hcc⟩ : ∃ c cs, natDecL i.natAbs = c :: cs := by
      cases hx : natDecL i.natAbs with
      | nil => exact absurd hx (natDecL_ne_nil _)
      | cons c cs => exact ⟨c, cs, rfl⟩
    have hc : isDigitCh c = true := natDecAux_digits _ _ c (by rw [← natDecL, hcc]; simp)
    have hcm : c ≠ '-' := digit_ne c hc '-' (by left; decide)
    rw [hcc]
    show parseNumber (c :: (cs ++ rest)) = some (i, rest)
    simp only [parseNumber, if_neg hcm]
    rw [show c :: (cs ++ rest) = (c :: cs) ++ rest from rfl, ← hcc,
      parseNatNum_natDecL _ _ h]
    have : ((i.natAbs : Nat) : Int) = i := by omega
    simp [this]

theorem parseCore_val_quote (f : Nat) (s : String) (rest : List Char) :
    parseCore (f + 1) false (quoteL s ++ rest) = some (Json.jstr s, rest) := by
  rw [show quoteL s ++ rest = '"' :: (escJsonList s.data ++ ('"' :: rest)) from by
    simp [quoteL]]
  rw [show parseCore (f + 1) false ('"' :: (escJsonList s.data ++ ('"' :: rest))) =
    (parseStrBody (escJsonList s.data ++ ('"' :: rest))).map
      (fun p => (Json.jstr ⟨p.1⟩, p.2)) from rfl]
  rw [parseStrBody_esc]
  rfl

theorem parseCore_val_default (f : Nat) (c : Char) (r : List Char)
    (hw : isJsonWs c = false) (h1 : c ≠ '"') (h2 : c ≠ '{')
    (h3 : c ≠ 'n') (h4 : c ≠ 't') (h5 : c ≠ 'f') :
    parseCore (f + 1) false (c :: r) =
      (parseNumber (c :: r)).map fun p => (Json.jnum p.1, p.2) := by
  simp only [parseCore]
  rw [skipWs_not c r hw]
  simp [h1, h2, h3, h4, h5]

theorem digit_not_ws (c : Char) (hc : isDigitCh c = true) : isJsonWs c = false := by
  simp only [isDigitCh, Bool.and_eq_true, decide_eq_true_eq] at hc
  simp only [isJsonWs, Bool.or_eq_false_iff, decide_eq_false_iff_not]
  refine ⟨⟨⟨?_, ?_⟩, ?_⟩, ?_⟩
  · exact ne_of_toNat_ne (by rw [show (' ' : Char).toNat = 32 from rfl]; omega)
  · exact ne_of_toNat_ne (by rw [show ('\t' : Char).toNat = 9 from rfl]; omega)
  · exact ne_of_toNat_ne (by rw [show ('\n' : Char).toNat = 10 from rfl]; omega)
  · exact ne_of_toNat_ne (by rw [show ('\r' : Char).toNat = 13 from rfl]; omega)

theorem parseCore_val_num (f : Nat) (i : Int) (rest : List Char)
    (h : headIsDigit rest = false) :
    parseCore (f + 1) false (intDecL i ++ rest) = some (Json.jnum i, rest) := by
  by_cases hi : i < 0
  · rw [show intDecL i ++ rest = '-' :: (natDecL i.natAbs ++ rest) from by
      simp [intDecL, hi]]
    rw [show parseCore (f + 1) false ('-' :: (natDecL i.natAbs ++ rest)) =
      (parseNumber ('-' :: (natDecL i.natAbs ++ rest))).map
        (fun p => (Json.jnum p.1, p.2)) from rfl]
    rw [show '-' :: (natDecL i.natAbs ++ rest) = intDecL i ++ rest from by
      simp [intDecL, hi]]
    rw [parseNumber_intDecL i rest h]
    rfl
  · obtain ⟨c, cs, hcc⟩ : ∃ c cs, natDecL i.natAbs = c :: cs := by
      cases hx : natDecL i.natAbs with
      | nil => exact absurd hx (natDecL_ne_nil _)
      | cons c cs => exact ⟨c, cs, rfl⟩
    have hc : isDigitCh c = true := natDecAux_digits _ _ c (by rw [← natDecL, hcc]; simp)
    rw [show intDecL i ++ rest = c :: (cs ++ rest) from by simp [intDecL, hi, hcc]]
    rw [parseCore_val_default f c _ (digit_not_ws c hc)
      (digit_ne c hc _ (by left; decide)) (digit_ne c hc _ (by right; decide))
      (digit_ne c hc _ (by right; decide)) (digit_ne c hc _ (by right; decide))
      (digit_ne c hc _ (by right; decide))]
    rw [show c :: (cs ++ rest) = intDecL i ++ rest from by simp [intDecL, hi, hcc]]
    rw [parseNumber_intDecL i rest h]
    rfl

theorem parseCore_member_last (f : Nat) (key : String) (v : Json) (vrep rest : List Char)
    (hv : parseCore f false (vrep ++ '}' :: rest) = some (v, '}' :: rest)) :
    parseCore (f + 1) true (quoteL key ++ ':' :: (vrep ++ '}' :: rest)) =
      some (Json.jobj [(key, v)], rest) := by
  rw [show quoteL key ++ ':' :: (vrep ++ '}' :: rest) =
    '"' :: (escJsonList key.data ++ ('"' :: (':' :: (vrep ++ '}' :: rest)))) from by
      simp [quoteL]]
  simp [parseCore, skipWs, isJsonWs, parseStrBody_esc, hv]

theorem parseCore_member_cons (f : Nat) (key : String) (v : Json)
    (vrep mrest rest : List Char) (ps : List (String × Json))
    (hv : parseCore f false (vrep ++ ',' :: mrest) = some (v, ',' :: mrest))
    (hm : parseCore f true mrest = some (Json.jobj ps, rest)) :
    parseCore (f + 1) true (quoteL key ++ ':' :: (vrep ++ ',' :: mrest)) =
      some (Json.jobj ((key, v) :: ps), rest) := by
  rw [show quoteL key ++ ':' :: (vrep ++ ',' :: mrest) =
    '"' :: (escJsonList key.data ++ ('"' :: (':' :: (vrep ++ ',' :: mrest)))) from by
      simp [quoteL]]
  simp [parseCore, skipWs, isJsonWs, parseStrBody_esc, hv, hm]

theorem parseCore_qfields :
    ∀ (qs : List (String × String)) (f : Nat) (rest : List Char),
      qs ≠ [] → qs.length + 1 ≤ f →
      parseCore f true (qFieldsL qs ++ '}' :: rest) =
        some (Json.jobj (qs.map fun p => (p.1, Json.jstr p.2)), rest) := by
  intro qs
  induction qs with
  | nil => intro f rest hne; exact absurd rfl hne
  | cons kv qs' ih =>
    intro f rest _ hf
    obtain ⟨k, v⟩ := kv
    cases qs' with
    | nil =>
      have hf' : 2 ≤ f := by simpa using hf
      obtain ⟨f2, rfl⟩ : ∃ f2, f = f2 + 2 := ⟨f - 2, by omega⟩
      rw [show qFieldsL [(k, v)] ++ '}' :: rest =
        quoteL k ++ ':' :: (quoteL v ++ '}' :: rest) from by
          simp [qFieldsL, List.append_assoc]]
      rw [show f2 + 2 = (f2 + 1) + 1 from rfl]
      rw [parseCore_member_last (f2 + 1) k (Json.jstr v) (quoteL v) rest
        (parseCore_val_quote f2 v ('}' :: rest))]
      rfl
    | cons p qs'' =>
      have hf' : qs''.length + 3 ≤ f := by simpa using hf
      obtain ⟨f2, rfl⟩ : ∃ f2, f = f2 + 2 := ⟨f - 2, by omega⟩
      rw [show qFieldsL ((k, v) :: p :: qs'') ++ '}' :: rest =
        quoteL k ++ ':' :: (quoteL v ++ ',' :: (qFieldsL (p :: qs'') ++ '}' :: rest))
        from by simp [qFieldsL, List.append_assoc]]
      rw [show f2 + 2 = (f2 + 1) + 1 from rfl]
      rw [parseCore_member_cons (f2 + 1) k (Json.jstr v) (quoteL v)
        (qFieldsL (p :: qs'') ++ '}' :: rest) rest
        ((p :: qs'').map fun q => (q.1, Json.jstr q.2))
        (parseCore_val_quote f2 v _)
        (ih (f2 + 1) rest (by simp) (by simp at hf ⊢; omega))]
      rfl

theorem parseCore_qobject (f : Nat) (qs : List (String × String)) (rest : List Char)
    (hf : qs.length + 2 ≤ f) :
    parseCore f false (('{' :: (qFieldsL qs ++ ['}'])) ++ rest) =
      some (Json.jobj (qs.map fun p => (p.1, Json.jstr p.2)), rest) := by
  obtain ⟨f1, rfl⟩ : ∃ f1, f = f1 + 1 := ⟨f - 1, by omega⟩
  cases qs with
  | nil => rfl
  | cons p qs' =>
    obtain ⟨T, hT⟩ : ∃ T, qFieldsL (p :: qs') = '"' :: T := by
      obtain ⟨k, v⟩ := p
      cases qs' <;> exact ⟨_, rfl⟩
    rw [show ('{' :: (qFieldsL (p :: qs') ++ ['}'])) ++ rest =
      '{' :: (qFieldsL (p :: qs') ++ '}' :: rest) from by simp]
    rw [hT]
    rw [show parseCore (f1 + 1) false ('{' :: (('"' :: T) ++ '}' :: rest)) =
      parseCore f1 true (('"' :: T) ++ '}' :: rest) from rfl]
    rw [← hT]
    exact parseCore_qfields (p :: qs') f1 rest (by simp) (by simp at hf ⊢; omega)

theorem parseCore_obj_entry (f : Nat) (key : String) (X : List Char) :
    parseCore (f + 1) false ('{' :: (quoteL key ++ X)) =
      parseCore f true (quoteL key ++ X) := by
  rw [show quoteL key ++ X = '"' :: (escJsonList key.data ++ ('"' :: X)) from by
    simp [quoteL]]
  rfl

theorem parseCore_suspendJson (d : SuspendData) (k : Nat) (rest : List Char) :
    parseCore (k + (d.q.length + 6)) false (suspendJsonL d ++ rest) =
      some (d.toJson, rest) := by
  have hin : suspendJsonL d ++ rest =
      '{' :: (quoteL "l" ++ ':' :: (intDecL d.l ++ ',' ::
        (quoteL "t" ++ ':' :: (intDecL d.t ++ ',' ::
          (quoteL "q" ++ ':' :: (('{' :: (qFieldsL d.q ++ ['}'])) ++ '}' :: rest)))))) := by
    simp [suspendJsonL, List.append_assoc]
  rw [hin]
  rw [show k + (d.q.length + 6) = ((k + d.q.length + 4) + 1) + 1 from by omega]
  rw [parseCore_obj_entry]
  have h_q : parseCore (k + d.q.length + 2) false
      (('{' :: (qFieldsL d.q ++ ['}'])) ++ '}' :: rest) =
      some (Json.jobj (d.q.map fun p => (p.1, Json.jstr p.2)), '}' :: rest) :=
    parseCore_qobject _ _ _ (by omega)
  have h_m3 : parseCore (k + d.q.length + 3) true
      (quoteL "q" ++ ':' :: (('{' :: (qFieldsL d.q ++ ['}'])) ++ '}' :: rest)) =
      some (Json.jobj [("q", Json.jobj (d.q.map fun p => (p.1, Json.jstr p.2)))], rest) :=
    parseCore_member_last _ _ _ _ _ h_q
  have h_m2 : parseCore (k + d.q.length + 4) true
      (quoteL "t" ++ ':' :: (intDecL d.t ++ ',' ::
        (quoteL "q" ++ ':' :: (('{' :: (qFieldsL d.q ++ ['}'])) ++ '}' :: rest)))) =
      some (Json.jobj [("t", Json.jnum d.t),
        ("q", Json.jobj (d.q.map fun p => (p.1, Json.jstr p.2)))], rest) :=
    parseCore_member_cons _ _ _ _ _ _ _
      (parseCore_val_num _ d.t _ (by rfl)) h_m3
  have h_m1 : parseCore ((k + d.q.length + 4) + 1) true
      (quoteL "l" ++ ':' :: (intDecL d.l ++ ',' ::
        (quoteL "t" ++ ':' :: (intDecL d.t ++ ',' ::
          (quoteL "q" ++ ':' :: (('{' :: (qFieldsL d.q ++ ['}'])) ++ '}' :: rest)))))) =
      some (Json.jobj [("l", Json.jnum d.l), ("t", Json.jnum d.t),
        ("q", Json.jobj (d.q.map fun p => (p.1, Json.jstr p.2)))], rest) :=
    parseCore_member_cons _ _ _ _ _ _ _
      (parseCore_val_num _ d.l _ (by rfl)) h_m2
  rw [h_m1]
  rfl

theorem qFieldsL_len (qs : List (String × String)) : qs.length ≤ (qFieldsL qs).length := by
  induction qs with
  | nil => simp [qFieldsL]
  | cons kv qs' ih =>
    obtain ⟨k, v⟩ := kv
    cases qs' with
    | nil => simp [qFieldsL, quoteL]
    | cons p qs'' =>
      simp only [qFieldsL, quoteL, List.length_append, List.length_cons] at ih ⊢
      simp at ih ⊢
      omega

theorem intDecL_len (i : Int) : 1 ≤ (intDecL i).length := by
  unfold intDecL
  split_ifs
  · simp
  · exact List.length_pos.mpr (natDecL_ne_nil _)

theorem suspendJsonL_len (d : SuspendData) :
    d.q.length + 5 ≤ (suspendJsonL d).length := by
  have h1 := intDecL_len d.l
  have h2 := intDecL_len d.t
  have h3 := qFieldsL_len d.q
  simp only [suspendJsonL, quoteL, List.length_append, List.length_cons]
  simp
  omega

theorem parseJson_suspendJson (d : SuspendData) :
    parseJson (suspendJson d) = some d.toJson := by
  have hlen := suspendJsonL_len d
  unfold parseJson
  rw [show (suspendJson d).length = (suspendJsonL d).length from rfl]
  rw [show (suspendJson d).data = suspendJsonL d from rfl]
  obtain ⟨k, hk⟩ : ∃ k, (suspendJsonL d).length + 1 = k + (d.q.length + 6) :=
    ⟨(suspendJsonL d).length + 1 - (d.q.length + 6), by omega⟩
  have hps := parseCore_suspendJson d k []
  rw [List.append_nil] at hps
  rw [hk, hps]
  rfl

theorem qFieldsBack_map (qs : List (String × String)) :
    qFieldsBack (qs.map fun p => (p.1, Json.jstr p.2)) = some qs := by
  induction qs with
  | nil => rfl
  | cons kv qs' ih =>
    obtain ⟨k, v⟩ := kv
    show (qFieldsBack (qs'.map fun p => (p.1, Json.jstr p.2))).map
      (fun q => (k, v) :: q) = some ((k, v) :: qs')
    rw [ih]
    rfl

theorem asSuspendData_toJson (d : SuspendData) : asSuspendData d.toJson = some d := by
  show asSuspendData (Json.jobj [("l", Json.jnum d.l), ("t", Json.jnum d.t),
    ("q", Json.jobj (d.q.map fun p => (p.1, Json.jstr p.2)))]) = some d
  rw [show asSuspendData (Json.jobj [("l", Json.jnum d.l), ("t", Json.jnum d.t),
      ("q", Json.jobj (d.q.map fun p => (p.1, Json.jstr p.2)))]) =
    (qFieldsBack (d.q.map fun p => (p.1, Json.jstr p.2))).map
      (fun q => ⟨d.l, d.t, q⟩) from rfl]
  rw [qFieldsBack_map]
  rfl

theorem isBlank_suspendJson (d : SuspendData) : isBlank (suspendJson d) = false := by
  show (suspendJsonL d).all isJsTrimWs = false
  rw [show suspendJsonL d = '{' :: (quoteL "l" ++ ':' :: intDecL d.l ++
    ',' :: quoteL "t" ++ ':' :: intDecL d.t ++
    ',' :: quoteL "q" ++ ':' :: '{' :: (qFieldsL d.q ++ ['}', '}'])) from rfl]
  simp [List.all_cons, show isJsTrimWs '{' = false from rfl]

/-- Claim C2: deserialization is a left inverse of serialization: on
every suspend state the serializer accepts, parsing the serialized
string back yields the original state unchanged. -/
theorem deserialize_serialize (d : SuspendData) (json : String)
    (h : serialize d = .ok json) : deserialize json = some d := by
  have hjson : json = suspendJson d := by
    by_cases hc : MAX_LENGTH < jsLen (suspendJson d)
    · simp [serialize, hc] at h
    · simp [serialize, hc] at h
      exact h.symm
  subst hjson
  simp [deserialize, isBlank_suspendJson, parseJson_suspendJson, asSuspendData_toJson]

/-- Witness for C2 at the empty-course state: the state of lesson 0,
timestamp 0, no answers round-trips. -/
theorem deserialize_serialize_witness :
    deserialize (suspendJson ⟨0, 0, []⟩) = some ⟨0, 0, []⟩ :=
  deserialize_serialize ⟨0, 0, []⟩ (suspendJson ⟨0, 0, []⟩) rfl

end CourseForge
